import Mathlib

/-!
Shallow embedding of the buck2 DICE incremental computation engine core
(`dice/src/impls/ctx.rs`, `dice/src/api/computations.rs`,
`shed/more_futures/src/cancellation.rs`) for checking the natural-language
specification against the code.

The entry points present in the source tree (`SharedLiveTransactionCtx::compute_opaque`,
`SharedLiveTransactionCtx::compute_projection`, `PerComputeCtx::project`,
`PerComputeCtx::store_evaluation_data`, `ExplicitCancellationContext::critical_section`,
and the legacy cycle-detection `subrequest` exercised by the tests in
`api/computations.rs`) are translated branch by branch.  Supporting modules
that the excerpt does not include (`impls/cache.rs`, `impls/task`,
`impls/incremental.rs`, `impls/key_index.rs`, `impls/dep_trackers.rs`,
`legacy/ctx.rs`, `more_futures/cancellation/future.rs`) are modelled from the
spec; each such definition says so in its doc comment.
-/

namespace Buck2

/-- `DiceKey` (impls/key.rs): dense interned integer identity of a key. -/
structure DiceKey where
  index : Nat
deriving DecidableEq, Repr

/-- `ParentKey` (impls/key.rs): the requesting parent key, or none for a
top-level request. -/
inductive ParentKey where
  | none
  | key (k : DiceKey)
deriving DecidableEq, Repr

/-- `DiceValidity` (impls/value.rs): whether a computed value may be cached
normally or is transient. -/
inductive DiceValidity where
  | valid
  | transient
deriving DecidableEq, Repr

/-- A type-erased dice value (`Arc<dyn DiceValueDyn>`): a payload together
with the runtime type tag used by downcasts. -/
structure DiceValueDyn where
  tyTag : Nat
  payload : Nat
deriving DecidableEq, Repr

/-- `MaybeValidDiceValue` (impls/value.rs): a type-erased value plus its
validity. -/
structure MaybeValidDiceValue where
  value : DiceValueDyn
  validity : DiceValidity
deriving DecidableEq, Repr

/-- `MaybeValidDiceValue::downcast_maybe_transient::<V>()`: succeeds exactly
when the runtime type tag matches the expected associated value type. -/
def MaybeValidDiceValue.downcast_maybe_transient (v : MaybeValidDiceValue)
    (expectedTag : Nat) : Option Nat :=
  if v.value.tyTag = expectedTag then some v.value.payload else none

/-- `DiceComputedValue` (impls/value.rs): the value handed to waiters of a
completed task. -/
structure DiceComputedValue where
  value : MaybeValidDiceValue
deriving DecidableEq, Repr

/-- `Cancelled` (result.rs): marker error of a cancelled shared computation. -/
structure Cancelled where
deriving DecidableEq, Repr

/-- `CancellableResult<T>` (result.rs). -/
abbrev CancellableResult (α : Type) : Type := Except Cancelled α

/-- Modelled from the spec (§7; api/error.rs is not in src/): the error
taxonomy `DiceErrorImpl` with its three kinds. -/
inductive DiceErrorImpl where
  | cycle (trigger : Nat) (cyclicKeys : List Nat)
  | cancelled
  | duplicateActivationData
deriving DecidableEq, Repr

/-- `DiceError::cancelled()`. -/
def DiceError.cancelled : DiceErrorImpl := DiceErrorImpl.cancelled

/-- `DiceError::duplicate_activation_data()`. -/
def DiceError.duplicate_activation_data : DiceErrorImpl :=
  DiceErrorImpl.duplicateActivationData

/-- `DiceResult<T>`. -/
abbrev DiceResult (α : Type) : Type := Except DiceErrorImpl α

/-- `CowDiceKeyHashed` (impls/key.rs): the structural identity the interner
hashes — either a plain key value or a (base key, projection key) pair. -/
inductive CowDiceKeyHashed where
  | key (k : Nat)
  | proj (base : DiceKey) (pk : Nat)
deriving DecidableEq, Repr

/-- Position of a structural key among those already interned. -/
def findInterned : List CowDiceKeyHashed → CowDiceKeyHashed → Option Nat
  | [], _ => none
  | a :: rest, k =>
    if a = k then some 0 else (findInterned rest k).map (fun n => n + 1)

/-- Modelled from the spec (§4.1; impls/key_index.rs is not in src/): the key
interner state, a growing list of structural keys whose position is the dense
`DiceKey` identity. -/
structure DiceKeyIndex where
  interned : List CowDiceKeyHashed
deriving DecidableEq, Repr

/-- Modelled from the spec (§4.1): `DiceKeyIndex::index` returns the existing
identity for an already-interned structural key and otherwise assigns the next
dense index. -/
def DiceKeyIndex.index (s : DiceKeyIndex) (k : CowDiceKeyHashed) :
    DiceKeyIndex × DiceKey :=
  match findInterned s.interned k with
  | some i => (s, ⟨i⟩)
  | none => ({ interned := s.interned ++ [k] }, ⟨s.interned.length⟩)

/-- The lifecycle state of a task: pending (promise unresolved), done
(value broadcast to every waiter), or cancelled (superseded). -/
inductive DiceTaskState where
  | pending
  | done (v : DiceComputedValue)
  | cancelled
deriving DecidableEq, Repr

/-- Observable content of one task attempt, as remembered by a
`PreviouslyCancelledTask`. -/
structure DiceTaskRecord where
  state : DiceTaskState
  waiters : List ParentKey
  runsComputeLogic : Nat
deriving DecidableEq, Repr

/-- Modelled from the spec (§3 Task, §4.3; impls/task is not in src/): the
unit of memoization for one `DiceKey` in one shared cache.  `waiters` are the
parents attached via `depended_on_by`; `runsComputeLogic` is the number of
times the key's compute logic executes over this task's lifetime (exactly one
per spawned task, spec §4.3 item 3, and zero for a bare `sync_dice_task`
until the projection completes it); `previously` is the chain of earlier
cancelled attempts this task was constructed from. -/
structure DiceTask where
  state : DiceTaskState
  waiters : List ParentKey
  runsComputeLogic : Nat
  previously : List DiceTaskRecord
deriving DecidableEq, Repr

/-- The remembered record of a task attempt. -/
def DiceTask.record (t : DiceTask) : DiceTaskRecord :=
  ⟨t.state, t.waiters, t.runsComputeLogic⟩

/-- `MaybeCancelled` (impls/task/dice.rs): result of `depended_on_by` — the
promise with the waiter attached, or the information that the task was
cancelled. -/
inductive MaybeCancelled where
  | ok (t : DiceTask)
  | cancelled
deriving DecidableEq, Repr

/-- Modelled from the spec (§4.3; impls/task is not in src/):
`DiceTask::depended_on_by` attaches the parent as a waiter on the task's
promise unless the task is cancelled; attaching never re-executes the key's
compute logic. -/
def DiceTask.depended_on_by (t : DiceTask) (p : ParentKey) : MaybeCancelled :=
  match t.state with
  | .cancelled => .cancelled
  | _ => .ok { t with waiters := p :: t.waiters }

/-- `MaybeCancelled::not_cancelled`. -/
def MaybeCancelled.not_cancelled : MaybeCancelled → Option DiceTask
  | .ok t => some t
  | .cancelled => none

/-- The `.expect("just created")` pattern: attach a waiter to a freshly
created (hence not cancelled) task; the fallback branch is unreachable for
such tasks. -/
def DiceTask.attachNew (t : DiceTask) (p : ParentKey) : DiceTask :=
  match (t.depended_on_by p).not_cancelled with
  | some attached => attached
  | none => t

/-- Association lookup in the shared cache map. -/
def findTask : List (DiceKey × DiceTask) → DiceKey → Option DiceTask
  | [], _ => none
  | (k, t) :: rest, key => if k = key then some t else findTask rest key

/-- Association update (replace or insert) in the shared cache map. -/
def setTask : List (DiceKey × DiceTask) → DiceKey → DiceTask →
    List (DiceKey × DiceTask)
  | [], key, t => [(key, t)]
  | (k, t0) :: rest, key, t =>
    if k = key then (key, t) :: rest else (k, t0) :: setTask rest key t

/-- `Entry` (dashmap): an occupied or vacant slot of the shared cache. -/
inductive CacheEntry where
  | occupied (t : DiceTask)
  | vacant
deriving DecidableEq, Repr

/-- Modelled from the spec (§4.2; impls/cache.rs is not in src/): the shared
per-(version, epoch) cache.  `valid` is false once the generation has been
invalidated. -/
structure SharedCache where
  valid : Bool
  entries : List (DiceKey × DiceTask)
deriving DecidableEq, Repr

/-- Modelled from the spec (§4.2): `SharedCache::get` returns `None` when the
generation is stale, otherwise the vacant or occupied entry for the key. -/
def SharedCache.get (c : SharedCache) (k : DiceKey) : Option CacheEntry :=
  if c.valid then
    match findTask c.entries k with
    | some t => some (.occupied t)
    | none => some .vacant
  else none

/-- Write-back of one cache slot. -/
def SharedCache.set (c : SharedCache) (k : DiceKey) (t : DiceTask) :
    SharedCache :=
  { c with entries := setTask c.entries k t }

/-- Modelled from the spec (§4.3; impls/incremental.rs is not in src/):
`IncrementalEngine::spawn_for_key` creates a fresh pending task whose compute
logic executes exactly once over the task's lifetime, constructed with the
previous cancelled attempt when one is supplied. -/
def IncrementalEngine.spawn_for_key (previously : Option DiceTask) : DiceTask :=
  match previously with
  | some prev =>
    { state := .pending, waiters := [], runsComputeLogic := 1,
      previously := prev.record :: prev.previously }
  | none =>
    { state := .pending, waiters := [], runsComputeLogic := 1, previously := [] }

/-- `sync_dice_task()` (impls/task): a task with no spawned compute logic,
completed synchronously by `IncrementalEngine::project_for_key`. -/
def sync_dice_task : DiceTask :=
  { state := .pending, waiters := [], runsComputeLogic := 0, previously := [] }

/-- The future returned by `SharedLiveTransactionCtx::compute_opaque`: either
the shared promise on the task in slot `k` (the `left_future` branches), or
the stale-generation async block that performs `yields` scheduler yields and
then resolves to `Err(Cancelled)` (the `right_future` branch). -/
inductive OpaqueFuture where
  | promise (k : DiceKey)
  | staleCancelled (yields : Nat)
deriving DecidableEq, Repr

/-- Suspension points an async computation may pass through. -/
inductive SuspensionPoint where
  | yieldNow
  | awaitTaskPromise (k : DiceKey)
deriving DecidableEq, Repr

/-- The suspension points awaiting an `OpaqueFuture` passes through. -/
def OpaqueFuture.suspensions : OpaqueFuture → List SuspensionPoint
  | .promise k => [.awaitTaskPromise k]
  | .staleCancelled n => List.replicate n .yieldNow

/-- `SharedLiveTransactionCtx` (impls/ctx.rs): the context shared by all live
computations of one version.  `executions` is ghost instrumentation counting
invocations of `IncrementalEngine::spawn_for_key`, i.e. how many times some
key's async compute logic has been started (spec §4.3 item 3). -/
structure SharedLiveTransactionCtx where
  version : Nat
  version_epoch : Nat
  cache : SharedCache
  executions : Nat
deriving DecidableEq, Repr

/-- `SharedLiveTransactionCtx::compute_opaque` (impls/ctx.rs, the modern
engine's request protocol), branch by branch from the source: an occupied
non-cancelled entry attaches the parent as a waiter on the existing promise;
an occupied cancelled entry is replaced in place (`take_mut::take`) by
`spawn_for_key` handed the previous attempt as a `PreviouslyCancelledTask`
and the parent attaches to the new task; a vacant entry spawns a fresh task,
attaches the parent, and inserts it; a stale cache returns the async block
that yields once and resolves to `Err(Cancelled)`. -/
def SharedLiveTransactionCtx.compute_opaque (ctx : SharedLiveTransactionCtx)
    (key : DiceKey) (parent_key : ParentKey) :
    SharedLiveTransactionCtx × OpaqueFuture :=
  match ctx.cache.get key with
  | some (.occupied t) =>
    match t.depended_on_by parent_key with
    | .ok attached =>
      ({ ctx with cache := ctx.cache.set key attached }, .promise key)
    | .cancelled =>
      let fresh := IncrementalEngine.spawn_for_key (some t)
      let attached := fresh.attachNew parent_key
      ({ ctx with
          cache := ctx.cache.set key attached,
          executions := ctx.executions + 1 },
        .promise key)
  | some .vacant =>
    let task := IncrementalEngine.spawn_for_key none
    let attached := task.attachNew parent_key
    ({ ctx with
        cache := ctx.cache.set key attached,
        executions := ctx.executions + 1 },
      .promise key)
  | none => (ctx, .staleCancelled 1)

/-- Modelled from the spec (§4.3, invariant 4; impls/task is not in src/):
normal completion of the task in slot `k` stores the computed value and
resolves the promise for every attached waiter. -/
def SharedLiveTransactionCtx.completeTask (ctx : SharedLiveTransactionCtx)
    (k : DiceKey) (v : DiceComputedValue) : SharedLiveTransactionCtx :=
  match findTask ctx.cache.entries k with
  | some t => { ctx with cache := ctx.cache.set k { t with state := .done v } }
  | none => ctx

/-- Modelled from the spec (§4.3, invariant 4): what a waiter holding the
future observes once it resolves — the slot task's single completion value
for a promise (`Cancelled` if that attempt was cancelled, still unresolved if
pending), or `Err(Cancelled)` for the stale-generation future. -/
def SharedLiveTransactionCtx.observeFuture (ctx : SharedLiveTransactionCtx) :
    OpaqueFuture → Option (CancellableResult DiceComputedValue)
  | .promise k =>
    match findTask ctx.cache.entries k with
    | some t =>
      match t.state with
      | .done v => some (.ok v)
      | .cancelled => some (.error ⟨⟩)
      | .pending => none
    | none => none
  | .staleCancelled _ => some (.error ⟨⟩)

/-- `SyncEvaluator` (impls/evaluator.rs, constructed at impls/ctx.rs
`SyncEvaluator::new(user_data, dice, base)`): evaluates a projection key
synchronously over the already-resolved base value; `projectionCompute` is
the projection key's `compute` logic together with its validity propagation. -/
structure SyncEvaluator where
  base : MaybeValidDiceValue
  projectionCompute : MaybeValidDiceValue → MaybeValidDiceValue

/-- The promise handed to `IncrementalEngine::project_for_key`: a task that
either lives in the cache slot for the projection key (`slotted`) or is a
detached `sync_dice_task` from the stale-generation branch. -/
structure ProjectionPromise where
  slotted : Bool
  task : DiceTask

/-- Outcome of `SharedLiveTransactionCtx::compute_projection`: the updated
shared context, the synchronous `CancellableResult`, and the suspension
points passed through while producing it. -/
structure ProjectionOutcome where
  ctx : SharedLiveTransactionCtx
  result : CancellableResult DiceComputedValue
  trace : List SuspensionPoint

/-- Modelled from the spec (§4.3, §3 invariant 5; impls/incremental.rs is not
in src/): `IncrementalEngine::project_for_key` completes the projection
promise synchronously — a task already holding a value yields that value,
otherwise the projection's compute logic runs synchronously on the resolved
base value and the result is stored into the slot; no branch suspends. -/
def IncrementalEngine.project_for_key (ctx : SharedLiveTransactionCtx)
    (promise : ProjectionPromise) (key : DiceKey) (eval : SyncEvaluator) :
    ProjectionOutcome :=
  match promise.task.state with
  | .done v => ⟨ctx, .ok v, []⟩
  | .pending =>
    let v : DiceComputedValue := ⟨eval.projectionCompute eval.base⟩
    let completed := { promise.task with state := .done v }
    if promise.slotted then
      ⟨{ ctx with cache := ctx.cache.set key completed }, .ok v, []⟩
    else
      ⟨ctx, .ok v, []⟩
  | .cancelled => ⟨ctx, .error ⟨⟩, []⟩

/-- `SharedLiveTransactionCtx::compute_projection` (impls/ctx.rs), branch by
branch from the source: an occupied non-cancelled entry reuses the existing
promise; an occupied cancelled entry is overwritten by a `sync_dice_task`; a
vacant entry inserts a `sync_dice_task`; a stale cache uses a detached
`sync_dice_task` that is never inserted.  In every branch the promise is then
completed synchronously by `IncrementalEngine::project_for_key` and the
`CancellableResult` is returned directly (the source function is not async). -/
def SharedLiveTransactionCtx.compute_projection (ctx : SharedLiveTransactionCtx)
    (key : DiceKey) (parent_key : ParentKey) (eval : SyncEvaluator) :
    ProjectionOutcome :=
  match ctx.cache.get key with
  | some (.occupied t) =>
    match t.depended_on_by parent_key with
    | .ok attached =>
      IncrementalEngine.project_for_key
        { ctx with cache := ctx.cache.set key attached }
        ⟨true, attached⟩ key eval
    | .cancelled =>
      let attached := sync_dice_task.attachNew parent_key
      IncrementalEngine.project_for_key
        { ctx with cache := ctx.cache.set key attached }
        ⟨true, attached⟩ key eval
  | some .vacant =>
    let attached := sync_dice_task.attachNew parent_key
    IncrementalEngine.project_for_key
      { ctx with cache := ctx.cache.set key attached }
      ⟨true, attached⟩ key eval
  | none =>
    let attached := sync_dice_task.attachNew parent_key
    IncrementalEngine.project_for_key ctx ⟨false, attached⟩ key eval

/-- `OpaqueValueModern<K>` (impls/opaque.rs): the opaque handle onto a
computed base value, consumable only through projections or `into_value`. -/
structure OpaqueValueModern where
  dice_key : DiceKey
  value : MaybeValidDiceValue
deriving DecidableEq, Repr

/-- `PerComputeCtx` (impls/ctx.rs): the context of one single key
evaluation.  `dep_trackers` is the `RecordingDepsTracker` (modelled from the
spec §4.5, impls/dep_trackers.rs is not in src/: an accumulator of
(DiceKey, validity) pairs recorded during this evaluation);
`evaluation_data` is the single-slot `EvaluationData` payload. -/
structure PerComputeCtx where
  key_index : DiceKeyIndex
  per_live_version_ctx : SharedLiveTransactionCtx
  dep_trackers : List (DiceKey × DiceValidity)
  parent_key : ParentKey
  evaluation_data : Option Nat
deriving DecidableEq, Repr

/-- `RecordingDepsTracker::record` (modelled from the spec §4.5): append one
(DiceKey, validity) observation. -/
def PerComputeCtx.recordDep (ctx : PerComputeCtx) (k : DiceKey)
    (v : DiceValidity) : PerComputeCtx :=
  { ctx with dep_trackers := ctx.dep_trackers ++ [(k, v)] }

/-- `PerComputeCtx::compute_opaque` (impls/ctx.rs): intern the structural key
and forward the request to the shared live-version context.  This step
records no dependency; the edge is recorded by `into_value` / projection
consumption of the returned opaque handle. -/
def PerComputeCtx.compute_opaque (ctx : PerComputeCtx) (key : Nat) :
    PerComputeCtx × DiceKey × OpaqueFuture :=
  let interned := ctx.key_index.index (.key key)
  let shared :=
    SharedLiveTransactionCtx.compute_opaque ctx.per_live_version_ctx
      interned.2 ctx.parent_key
  ({ ctx with key_index := interned.1, per_live_version_ctx := shared.1 },
    interned.2, shared.2)

/-- The closure `PerComputeCtx::compute_opaque` maps over the resolved shared
future (impls/ctx.rs lines 208-214): a value becomes the opaque handle, any
cancellable failure becomes `DiceError::cancelled()`. -/
def PerComputeCtx.mapComputeOpaqueOutput (dice_key : DiceKey)
    (r : CancellableResult DiceComputedValue) : DiceResult OpaqueValueModern :=
  match r with
  | .ok dice_value => .ok { dice_key := dice_key, value := dice_value.value }
  | .error _ => .error DiceError.cancelled

/-- Modelled from the spec (§4.5, §4.6; impls/opaque.rs is not in src/):
`OpaqueValueModern::into_value` records the opaque base key (with the base
value's validity) as a dependency of the current evaluation and yields the
value; `compute` is `compute_opaque` followed by this step. -/
def PerComputeCtx.opaque_into_value (ctx : PerComputeCtx)
    (ov : OpaqueValueModern) : PerComputeCtx × Nat :=
  (ctx.recordDep ov.dice_key ov.value.validity, ov.value.value.payload)

/-- An operation outcome that distinguishes a returned value from a runtime
panic (the `.expect(...)` channel), so that panics are not conflated with the
`DiceResult` error channel. -/
inductive PanicOr (α : Type) where
  | ok (a : α)
  | panicked (msg : String)
deriving DecidableEq, Repr

/-- `PerComputeCtx::project` (impls/ctx.rs), step by step from the source:
intern the (base key, projection key) pair; run the synchronous shared
`compute_projection` with a `SyncEvaluator` over the resolved base value; a
cancelled result returns `Err(DiceError::cancelled())`; otherwise the interned
projection key is recorded into the deps tracker with the result's validity,
and the value is downcast to the projection's associated value type, panicking
with "Type mismatch when computing key" if the downcast fails. -/
def PerComputeCtx.project (ctx : PerComputeCtx) (key : Nat) (expectedTag : Nat)
    (base_key : DiceKey) (base : MaybeValidDiceValue)
    (projectionCompute : MaybeValidDiceValue → MaybeValidDiceValue) :
    PerComputeCtx × PanicOr (DiceResult Nat) × List SuspensionPoint :=
  let interned := ctx.key_index.index (.proj base_key key)
  let ctx1 := { ctx with key_index := interned.1 }
  let dice_key := interned.2
  let outcome := ctx1.per_live_version_ctx.compute_projection dice_key
    ctx1.parent_key ⟨base, projectionCompute⟩
  let ctx2 := { ctx1 with per_live_version_ctx := outcome.ctx }
  match outcome.result with
  | .error _ =>
    (ctx2, .ok (.error DiceError.cancelled), outcome.trace)
  | .ok r =>
    let ctx3 := ctx2.recordDep dice_key r.value.validity
    match r.value.downcast_maybe_transient expectedTag with
    | some v => (ctx3, .ok (.ok v), outcome.trace)
    | none => (ctx3, .panicked "Type mismatch when computing key", outcome.trace)

/-- `PerComputeCtx::store_evaluation_data` (impls/ctx.rs): store the single
per-evaluation payload, failing with `DiceError::duplicate_activation_data()`
(and leaving the stored payload untouched) if one is already present. -/
def PerComputeCtx.store_evaluation_data (ctx : PerComputeCtx) (value : Nat) :
    PerComputeCtx × DiceResult Unit :=
  if ctx.evaluation_data.isSome then
    (ctx, .error DiceError.duplicate_activation_data)
  else
    ({ ctx with evaluation_data := some value }, .ok ())

/-- Modelled from the spec (§4.7; more_futures/cancellation/future.rs is not
in src/): the cancellation state the critical-section guard observes —
`exit_prevent_cancellation` returns true exactly when a cancellation request
(made before entry or during the section) is pending when the section exits. -/
structure ExecutionContext where
  cancellationRequestedAtExit : Bool
deriving DecidableEq, Repr

/-- The observable run of one `critical_section` call: the body's result and
the scheduler yields performed immediately after exiting the section. -/
structure CriticalSectionRun (α : Type) where
  result : α
  yieldsAfterExit : Nat

/-- `ExplicitCancellationContext::critical_section`
(more_futures/src/cancellation.rs): enter the critical section, drive the
body to completion unconditionally, and after exiting yield to the scheduler
exactly when `guard.exit_prevent_cancellation()` reports a pending
cancellation. -/
def ExplicitCancellationContext.critical_section (inner : ExecutionContext)
    (make : Unit → α) : CriticalSectionRun α :=
  let r := make ()
  { result := r
    yieldsAfterExit := if inner.cancellationRequestedAtExit then 1 else 0 }

/-- Modelled from the spec (§4.4; legacy/ctx.rs is not in src/): the
per-request-chain `ComputationData` with its ordered stack of open keys, as
exercised by the cycle-detection tests in api/computations.rs. -/
structure ComputationData where
  chain : List Nat
deriving DecidableEq, Repr

/-- Modelled from the spec (§4.4): `ComputationData::subrequest` fails with a
Cycle error carrying the trigger key and the ordered open chain when the
requested key is already present anywhere in the chain, and otherwise pushes
the key onto the chain. -/
def ComputationData.subrequest (cd : ComputationData) (k : Nat) :
    DiceResult ComputationData :=
  if k ∈ cd.chain then
    .error (.cycle k (cd.chain.dropWhile (fun a => a ≠ k)))
  else .ok { chain := cd.chain ++ [k] }

/-- A whole request chain: start from an empty `ComputationData` and issue
the subrequests in order. -/
def runChain (ks : List Nat) : DiceResult ComputationData :=
  ks.foldl (fun acc k => acc.bind (fun cd => cd.subrequest k)) (.ok { chain := [] })

/-- `M` concurrent requesters of the same key, arriving in some order: issue
one `compute_opaque` request per parent and collect the returned futures. -/
def requestAll (ctx : SharedLiveTransactionCtx) (key : DiceKey) :
    List ParentKey → SharedLiveTransactionCtx × List OpaqueFuture
  | [] => (ctx, [])
  | p :: ps =>
    let step := SharedLiveTransactionCtx.compute_opaque ctx key p
    let rest := requestAll step.1 key ps
    (rest.1, step.2 :: rest.2)

/-! Test fixtures used by the witnesses. -/

/-- An empty, valid shared context at version 0. -/
def emptyLiveCtx : SharedLiveTransactionCtx := ⟨0, 0, ⟨true, []⟩, 0⟩

/-- A shared context whose cache generation is stale. -/
def staleLiveCtx : SharedLiveTransactionCtx := ⟨0, 0, ⟨false, []⟩, 0⟩

/-- A fresh per-computation context for a top-level request. -/
def emptyPerCtx : PerComputeCtx := ⟨⟨[]⟩, emptyLiveCtx, [], .none, Option.none⟩

/-! Helper lemmas about the shared cache map. -/

theorem findTask_setTask_self (es : List (DiceKey × DiceTask)) (k : DiceKey)
    (t : DiceTask) : findTask (setTask es k t) k = some t := by
  induction es with
  | nil => simp [setTask, findTask]
  | cons a rest ih =>
    obtain ⟨k0, t0⟩ := a
    by_cases h : k0 = k
    · simp [setTask, findTask, h]
    · simp [setTask, findTask, h, ih]

theorem findTask_setTask_ne (es : List (DiceKey × DiceTask)) (k k2 : DiceKey)
    (t : DiceTask) (h : k2 ≠ k) :
    findTask (setTask es k t) k2 = findTask es k2 := by
  induction es with
  | nil =>
    simp only [setTask, findTask]
    rw [if_neg (fun hk => h hk.symm)]
  | cons a rest ih =>
    obtain ⟨k0, t0⟩ := a
    by_cases h0 : k0 = k
    · subst h0
      simp only [setTask, if_pos rfl, findTask]
      rw [if_neg (fun hk => h hk.symm), if_neg (fun hk => h hk.symm)]
    · simp only [setTask, if_neg h0, findTask]
      by_cases h2 : k0 = k2
      · simp [h2]
      · simp [h2, ih]

theorem SharedCache.get_set_self (c : SharedCache) (k : DiceKey) (t : DiceTask)
    (h : c.valid = true) : SharedCache.get (c.set k t) k = some (.occupied t) := by
  simp [SharedCache.get, SharedCache.set, h, findTask_setTask_self]

/-- Claim C6: the first `store_evaluation_data` call of an evaluation stores
the payload and returns `Ok`; every later call returns the
DuplicateActivationData error and leaves the evaluation state — in
particular the originally stored payload — unchanged. -/
theorem store_evaluation_data_stores_once :
    (∀ (ctx : PerComputeCtx) (value : Nat), ctx.evaluation_data = Option.none →
      PerComputeCtx.store_evaluation_data ctx value =
        ({ ctx with evaluation_data := some value }, .ok ())) ∧
    (∀ (ctx : PerComputeCtx) (p value : Nat), ctx.evaluation_data = some p →
      PerComputeCtx.store_evaluation_data ctx value =
        (ctx, .error DiceErrorImpl.duplicateActivationData)) ∧
    (∀ (ctx : PerComputeCtx) (v w : Nat), ctx.evaluation_data = Option.none →
      ( PerComputeCtx.store_evaluation_data
          ( PerComputeCtx.store_evaluation_data ctx v).1 w) =
        (( PerComputeCtx.store_evaluation_data ctx v).1,
          .error DiceErrorImpl.duplicateActivationData) ∧
      ( PerComputeCtx.store_evaluation_data ctx v).1.evaluation_data = some v) := by
  refine ⟨?_, ?_, ?_⟩
  · intro ctx value h
    simp [PerComputeCtx.store_evaluation_data, h,
      DiceError.duplicate_activation_data]
  · intro ctx p value h
    simp [PerComputeCtx.store_evaluation_data, h,
      DiceError.duplicate_activation_data]
  · intro ctx v w h
    simp [PerComputeCtx.store_evaluation_data, h,
      DiceError.duplicate_activation_data]

/-- Witness for C6 at a concrete evaluation context. -/
theorem store_evaluation_data_stores_once_witness :
    PerComputeCtx.store_evaluation_data emptyPerCtx 7 =
      ({ emptyPerCtx with evaluation_data := some 7 }, .ok ()) :=
  store_evaluation_data_stores_once.1 emptyPerCtx 7 rfl

/-- Claim C7: a body run under `critical_section` of an explicit cancellation
context runs to completion regardless of any pending cancellation request,
the section's result is the body's result, and immediately after exiting the
future yields to the scheduler exactly when a cancellation was pending at
exit (and does not yield otherwise). -/
theorem critical_section_runs_body_and_yields_iff_pending :
    ∀ (α : Type) (inner : ExecutionContext) (make : Unit → α),
      ( ExplicitCancellationContext.critical_section inner make).result =
        make () ∧
      (( ExplicitCancellationContext.critical_section inner
          make).yieldsAfterExit = 1 ↔
        inner.cancellationRequestedAtExit = true) ∧
      (( ExplicitCancellationContext.critical_section inner
          make).yieldsAfterExit = 0 ↔
        inner.cancellationRequestedAtExit = false) := by
  intro α inner make
  refine ⟨rfl, ?_, ?_⟩ <;>
    cases h : inner.cancellationRequestedAtExit <;>
      simp [ExplicitCancellationContext.critical_section, h]

/-- Claim C3: requesting a key already open in the current chain fails with a
Cycle error whose trigger is that key and whose cyclic key set is the ordered
keys of the cycle (the open chain from the first occurrence of the trigger);
the chain K1→K2→K3→K4→K1 fails with trigger K1 and cyclic set
{K1, K2, K3, K4}, while the repeat-free chain K1→K2→K3→K4 succeeds. -/
theorem subrequest_detects_cycles :
    (∀ (cd : ComputationData) (k : Nat), k ∈ cd.chain →
      cd.subrequest k =
        .error (.cycle k (cd.chain.dropWhile (fun a => a ≠ k)))) ∧
    (∀ (cd : ComputationData) (k : Nat), k ∉ cd.chain →
      cd.subrequest k = .ok { chain := cd.chain ++ [k] }) ∧
    runChain [1, 2, 3, 4, 1] = .error (.cycle 1 [1, 2, 3, 4]) ∧
    runChain [1, 2, 3, 4] = .ok { chain := [1, 2, 3, 4] } := by
  refine ⟨?_, ?_, by rfl, by rfl⟩
  · intro cd k h
    simp [ComputationData.subrequest, h]
  · intro cd k h
    simp [ComputationData.subrequest, h]

/-- Witness for C3 at a concrete open chain. -/
theorem subrequest_detects_cycles_witness :
    ComputationData.subrequest ⟨[9, 1, 2]⟩ 1 = .error (.cycle 1 [1, 2]) :=
  subrequest_detects_cycles.1 ⟨[9, 1, 2]⟩ 1 (by decide)

/-- Claim C4: a `compute_opaque` request against a stale cache generation
(the cache lookup returns `None`) leaves the shared state untouched — in
particular it spawns no task — and returns the future that yields control to
the scheduler exactly once and then resolves to the Cancelled error. -/
theorem compute_opaque_stale_generation_yields_once :
    ∀ (ctx : SharedLiveTransactionCtx) (key : DiceKey) (p : ParentKey),
      ctx.cache.valid = false →
      SharedLiveTransactionCtx.compute_opaque ctx key p =
        (ctx, .staleCancelled 1) ∧
      OpaqueFuture.suspensions (.staleCancelled 1) =
        [SuspensionPoint.yieldNow] ∧
      SharedLiveTransactionCtx.observeFuture ctx (.staleCancelled 1) =
        some (.error ⟨⟩) ∧
      ( SharedLiveTransactionCtx.compute_opaque ctx key p).1.executions =
        ctx.executions := by
  intro ctx key p h
  have hget : SharedCache.get ctx.cache key = Option.none := by
    simp [SharedCache.get, h]
  refine ⟨?_, by decide, rfl, ?_⟩
  · simp [ SharedLiveTransactionCtx.compute_opaque, hget]
  · simp [ SharedLiveTransactionCtx.compute_opaque, hget]

/-- Witness for C4 at a concrete stale context. -/
theorem compute_opaque_stale_generation_yields_once_witness :
    SharedLiveTransactionCtx.compute_opaque staleLiveCtx ⟨0⟩ .none =
      (staleLiveCtx, .staleCancelled 1) :=
  (compute_opaque_stale_generation_yields_once staleLiveCtx ⟨0⟩ .none rfl).1

/-- Claim C9: every error surfaced by the computation context operations is
one of the taxonomy's kinds: any failure of the underlying cancellable shared
computation — including the stale-generation future — is mapped by
`compute_opaque` and `project` to exactly `DiceError::cancelled()` (and no
success is turned into a failure, no failure is swallowed), while
`store_evaluation_data` only ever fails with DuplicateActivationData. -/
theorem context_errors_follow_taxonomy :
    (∀ (dk : DiceKey) (c : Cancelled),
      PerComputeCtx.mapComputeOpaqueOutput dk (.error c) =
        .error DiceErrorImpl.cancelled) ∧
    (∀ (dk : DiceKey) (v : DiceComputedValue),
      PerComputeCtx.mapComputeOpaqueOutput dk (.ok v) =
        .ok { dice_key := dk, value := v.value }) ∧
    (∀ (ctx : SharedLiveTransactionCtx) (n : Nat),
      SharedLiveTransactionCtx.observeFuture ctx (.staleCancelled n) =
        some (.error ⟨⟩)) ∧
    (∀ (ctx : PerComputeCtx) (key tag : Nat) (bk : DiceKey)
        (base : MaybeValidDiceValue)
        (pc : MaybeValidDiceValue → MaybeValidDiceValue) (e : DiceErrorImpl),
      ( PerComputeCtx.project ctx key tag bk base pc).2.1 = .ok (.error e) →
      e = DiceErrorImpl.cancelled) ∧
    (∀ (ctx : PerComputeCtx) (v : Nat) (e : DiceErrorImpl),
      ( PerComputeCtx.store_evaluation_data ctx v).2 = .error e →
      e = DiceErrorImpl.duplicateActivationData) := by
  refine ⟨fun dk c => rfl, fun dk v => rfl, fun ctx n => rfl, ?_, ?_⟩
  · intro ctx key tag bk base pc e h
    simp only [PerComputeCtx.project] at h
    split at h
    · simp only [DiceError.cancelled] at h
      injection h with h1
      injection h1 with h2
      exact h2.symm
    · split at h <;> simp at h
  · intro ctx v e h
    unfold PerComputeCtx.store_evaluation_data at h
    split at h
    · injection h with h1
      exact h1.symm
    · simp at h

/-- Witness for C9: the taxonomy facts applied at concrete inputs. -/
theorem context_errors_follow_taxonomy_witness :
    ( PerComputeCtx.store_evaluation_data
        { emptyPerCtx with evaluation_data := some 3 } 4).2 =
      .error DiceErrorImpl.duplicateActivationData := by
  have h := context_errors_follow_taxonomy.2.2.2.2
    { emptyPerCtx with evaluation_data := some 3 } 4
  have hcall :
      ( PerComputeCtx.store_evaluation_data
          { emptyPerCtx with evaluation_data := some 3 } 4).2 =
        .error DiceErrorImpl.duplicateActivationData := rfl
  exact (h DiceErrorImpl.duplicateActivationData hcall) ▸ hcall

/-- Claim C10: `project` never reports a projection value of the wrong
runtime type through the error channel: when the value delivered for the
interned projection key downcasts to the projection's associated value type,
the downcast failure branch is unreachable and the value is returned; when
that precondition is violated, the operation panics with "Type mismatch when
computing key" instead of returning a `DiceResult` error. -/
theorem project_type_mismatch_panics_not_errors :
    ∀ (ctx : PerComputeCtx) (key tag : Nat) (bk : DiceKey)
      (base : MaybeValidDiceValue)
      (pc : MaybeValidDiceValue → MaybeValidDiceValue) (r : DiceComputedValue),
      ( SharedLiveTransactionCtx.compute_projection ctx.per_live_version_ctx
          (ctx.key_index.index (.proj bk key)).2 ctx.parent_key
          ⟨base, pc⟩).result = .ok r →
      (∀ v, MaybeValidDiceValue.downcast_maybe_transient r.value tag = some v →
        ( PerComputeCtx.project ctx key tag bk base pc).2.1 = .ok (.ok v)) ∧
      ( MaybeValidDiceValue.downcast_maybe_transient r.value tag =
          Option.none →
        ( PerComputeCtx.project ctx key tag bk base pc).2.1 =
          .panicked "Type mismatch when computing key") := by
  intro ctx key tag bk base pc r h
  constructor
  · intro v hv
    unfold PerComputeCtx.project
    simp only [h, hv]
  · intro hv
    unfold PerComputeCtx.project
    simp only [h, hv]

/-- The resolved base value used by the projection fixtures. -/
def fixtureBase : MaybeValidDiceValue := ⟨⟨5, 3⟩, .valid⟩

/-- A concrete projection compute logic: derives a value of type tag 7. -/
def fixtureProj : MaybeValidDiceValue → MaybeValidDiceValue :=
  fun v => ⟨⟨7, v.value.payload + 1⟩, v.validity⟩

/-- The computed value the projection fixture produces. -/
def fixtureProjResult : DiceComputedValue := ⟨⟨⟨7, 4⟩, .valid⟩⟩

/-- Witness for C10 at a concrete projection whose downcast succeeds. -/
theorem project_type_mismatch_panics_not_errors_witness :
    ( PerComputeCtx.project emptyPerCtx 30 7 ⟨0⟩ fixtureBase fixtureProj).2.1 =
      .ok (.ok 4) :=
  (project_type_mismatch_panics_not_errors emptyPerCtx 30 7 ⟨0⟩ fixtureBase
    fixtureProj fixtureProjResult rfl).1 4 rfl

/-- Claim C2: a `compute_opaque` request that finds the entry occupied by a
cancelled task atomically replaces the slot's task with a freshly spawned
one constructed with the previous attempt (as `PreviouslyCancelledTask`),
attaches the requesting parent as the sole waiter on the new task's promise,
starts exactly one fresh execution of the compute logic, and the new promise
resolves to the fresh value once the replacement completes — not to a stale
cancelled result. -/
theorem compute_opaque_replaces_cancelled_task :
    ∀ (ctx : SharedLiveTransactionCtx) (key : DiceKey) (p : ParentKey)
      (t : DiceTask),
      SharedCache.get ctx.cache key = some (.occupied t) →
      t.state = .cancelled →
      ∃ fresh : DiceTask,
        SharedLiveTransactionCtx.compute_opaque ctx key p =
          ({ ctx with
              cache := ctx.cache.set key fresh,
              executions := ctx.executions + 1 }, .promise key) ∧
        fresh.state = .pending ∧
        fresh.waiters = [p] ∧
        fresh.runsComputeLogic = 1 ∧
        fresh.previously = t.record :: t.previously ∧
        (∀ v, SharedLiveTransactionCtx.observeFuture
            ( SharedLiveTransactionCtx.completeTask
              { ctx with
                  cache := ctx.cache.set key fresh,
                  executions := ctx.executions + 1 } key v)
            (.promise key) = some (.ok v)) := by
  intro ctx key p t hget hcanc
  refine ⟨⟨.pending, [p], 1, t.record :: t.previously⟩,
    ?_, rfl, rfl, rfl, rfl, ?_⟩
  · simp [ SharedLiveTransactionCtx.compute_opaque, hget,
      DiceTask.depended_on_by, hcanc, IncrementalEngine.spawn_for_key,
      DiceTask.attachNew, MaybeCancelled.not_cancelled]
  · intro v
    simp [SharedLiveTransactionCtx.completeTask,
      SharedLiveTransactionCtx.observeFuture, SharedCache.set,
      findTask_setTask_self]

/-- A cancelled task occupying a slot, used by the C2 witness. -/
def cancelledTaskFixture : DiceTask :=
  { state := .cancelled, waiters := [], runsComputeLogic := 1, previously := [] }

/-- A shared context whose slot for key 0 holds a cancelled task. -/
def cancelledSlotCtx : SharedLiveTransactionCtx :=
  ⟨0, 0, ⟨true, [(⟨0⟩, cancelledTaskFixture)]⟩, 1⟩

/-- Witness for C2 at a concrete cancelled slot. -/
theorem compute_opaque_replaces_cancelled_task_witness :
    ∃ fresh : DiceTask,
      SharedLiveTransactionCtx.compute_opaque cancelledSlotCtx ⟨0⟩ .none =
        ({ cancelledSlotCtx with
            cache := SharedCache.set cancelledSlotCtx.cache ⟨0⟩ fresh,
            executions := cancelledSlotCtx.executions + 1 }, .promise ⟨0⟩) ∧
      fresh.state = .pending ∧
      fresh.waiters = [.none] ∧
      fresh.runsComputeLogic = 1 ∧
      fresh.previously = cancelledTaskFixture.record ::
        cancelledTaskFixture.previously ∧
      (∀ v, SharedLiveTransactionCtx.observeFuture
          ( SharedLiveTransactionCtx.completeTask
            { cancelledSlotCtx with
                cache := SharedCache.set cancelledSlotCtx.cache ⟨0⟩ fresh,
                executions := cancelledSlotCtx.executions + 1 } ⟨0⟩ v)
          (.promise ⟨0⟩) = some (.ok v)) :=
  compute_opaque_replaces_cancelled_task cancelledSlotCtx ⟨0⟩ .none
    cancelledTaskFixture rfl rfl

/-- A cache lookup that returns an entry implies the generation is live. -/
theorem get_some_valid {c : SharedCache} {k : DiceKey} {e : CacheEntry}
    (h : SharedCache.get c k = some e) : c.valid = true := by
  by_cases hv : c.valid = true
  · exact hv
  · simp [SharedCache.get, hv] at h

/-- Attaching to an occupied non-cancelled entry: the request only adds the
parent as a waiter on the existing task and returns the shared promise. -/
theorem compute_opaque_attaches_to_existing
    (ctx : SharedLiveTransactionCtx) (key : DiceKey) (p : ParentKey)
    (t : DiceTask) (hget : SharedCache.get ctx.cache key = some (.occupied t))
    (hnc : t.state ≠ .cancelled) :
    SharedLiveTransactionCtx.compute_opaque ctx key p =
      ({ ctx with
          cache := ctx.cache.set key { t with waiters := p :: t.waiters } },
        .promise key) := by
  unfold SharedLiveTransactionCtx.compute_opaque
  rw [hget]
  cases hstate : t.state with
  | cancelled => exact absurd hstate hnc
  | pending => simp [DiceTask.depended_on_by, hstate]
  | done v => simp [DiceTask.depended_on_by, hstate]

/-- The slot for `key` holds a live (non-cancelled) task. -/
def occupiedNotCancelled (ctx : SharedLiveTransactionCtx) (key : DiceKey) :
    Prop :=
  ∃ t, SharedCache.get ctx.cache key = some (.occupied t) ∧
    t.state ≠ .cancelled

/-- While the slot holds a live task, any number of further requesters only
attach as waiters: no compute logic is started and every returned future is
the shared promise of that slot. -/
theorem requestAll_only_attaches (key : DiceKey) :
    ∀ (ps : List ParentKey) (ctx : SharedLiveTransactionCtx),
      occupiedNotCancelled ctx key →
      ( requestAll ctx key ps).1.executions = ctx.executions ∧
      (∀ f ∈ ( requestAll ctx key ps).2, f = .promise key) := by
  intro ps
  induction ps with
  | nil =>
    intro ctx h
    exact ⟨rfl, by simp [requestAll]⟩
  | cons p ps ih =>
    intro ctx h
    obtain ⟨t, hget, hnc⟩ := h
    have hvalid : ctx.cache.valid = true := get_some_valid hget
    have hstep := compute_opaque_attaches_to_existing ctx key p t hget hnc
    have hinv : occupiedNotCancelled
        { ctx with
            cache := ctx.cache.set key { t with waiters := p :: t.waiters } }
        key := by
      refine ⟨{ t with waiters := p :: t.waiters }, ?_, hnc⟩
      exact SharedCache.get_set_self ctx.cache key _ hvalid
    have hrest := ih _ hinv
    simp only [requestAll, hstep] at hrest ⊢
    refine ⟨hrest.1, ?_⟩
    intro f hf
    rcases List.mem_cons.mp hf with hf1 | hf2
    · exact hf1
    · exact hrest.2 f hf2

/-- Claim C1: a request that finds the entry occupied by a non-cancelled
task only attaches the parent as a waiter on the existing promise (no task
is spawned, no compute logic starts); a request that finds the entry vacant
spawns exactly one fresh task and inserts it before returning its promise;
hence M ≥ 2 requesters of the same key at the same version start the key's
compute logic exactly once, and all of them hold the same shared promise, so
all observe the same value. -/
theorem compute_opaque_dedup :
    (∀ (ctx : SharedLiveTransactionCtx) (key : DiceKey) (p : ParentKey)
        (t : DiceTask),
      SharedCache.get ctx.cache key = some (.occupied t) →
      t.state ≠ .cancelled →
      SharedLiveTransactionCtx.compute_opaque ctx key p =
        ({ ctx with
            cache := ctx.cache.set key { t with waiters := p :: t.waiters } },
          .promise key)) ∧
    (∀ (ctx : SharedLiveTransactionCtx) (key : DiceKey) (p : ParentKey),
      SharedCache.get ctx.cache key = some .vacant →
      SharedLiveTransactionCtx.compute_opaque ctx key p =
        ({ ctx with
            cache := ctx.cache.set key ⟨.pending, [p], 1, []⟩,
            executions := ctx.executions + 1 },
          .promise key)) ∧
    (∀ (ctx : SharedLiveTransactionCtx) (key : DiceKey)
        (ps : List ParentKey),
      SharedCache.get ctx.cache key = some .vacant →
      2 ≤ ps.length →
      ( requestAll ctx key ps).1.executions = ctx.executions + 1 ∧
      (∀ f ∈ ( requestAll ctx key ps).2, f = .promise key) ∧
      (∀ (ctxF : SharedLiveTransactionCtx) (f1 f2 : OpaqueFuture),
        f1 ∈ ( requestAll ctx key ps).2 → f2 ∈ ( requestAll ctx key ps).2 →
        SharedLiveTransactionCtx.observeFuture ctxF f1 =
          SharedLiveTransactionCtx.observeFuture ctxF f2)) := by
  have hvacant : ∀ (ctx : SharedLiveTransactionCtx) (key : DiceKey)
      (p : ParentKey),
      SharedCache.get ctx.cache key = some .vacant →
      SharedLiveTransactionCtx.compute_opaque ctx key p =
        ({ ctx with
            cache := ctx.cache.set key ⟨.pending, [p], 1, []⟩,
            executions := ctx.executions + 1 },
          .promise key) := by
    intro ctx key p hget
    unfold SharedLiveTransactionCtx.compute_opaque
    rw [hget]
    simp [IncrementalEngine.spawn_for_key, DiceTask.attachNew,
      DiceTask.depended_on_by, MaybeCancelled.not_cancelled]
  refine ⟨fun ctx key p t hget hnc =>
    compute_opaque_attaches_to_existing ctx key p t hget hnc, hvacant, ?_⟩
  intro ctx key ps hget hlen
  match ps with
  | p :: ps1 =>
    have hvalid : ctx.cache.valid = true := get_some_valid hget
    have hstep := hvacant ctx key p hget
    have hinv : occupiedNotCancelled
        { ctx with
            cache := ctx.cache.set key ⟨.pending, [p], 1, []⟩,
            executions := ctx.executions + 1 } key := by
      refine ⟨⟨.pending, [p], 1, []⟩, ?_, by simp⟩
      exact SharedCache.get_set_self ctx.cache key _ hvalid
    have hrest := requestAll_only_attaches key ps1 _ hinv
    have hall : (∀ f ∈ ( requestAll ctx key (p :: ps1)).2, f = .promise key) ∧
        ( requestAll ctx key (p :: ps1)).1.executions = ctx.executions + 1 := by
      simp only [requestAll, hstep] at hrest ⊢
      refine ⟨?_, hrest.1⟩
      intro f hf
      rcases List.mem_cons.mp hf with hf1 | hf2
      · exact hf1
      · exact hrest.2 f hf2
    refine ⟨hall.2, hall.1, ?_⟩
    intro ctxF f1 f2 h1 h2
    rw [hall.1 f1 h1, hall.1 f2 h2]

/-- Witness for C1: two concurrent requesters of key 0 on a fresh cache. -/
theorem compute_opaque_dedup_witness :
    ( requestAll emptyLiveCtx ⟨0⟩ [ParentKey.none, ParentKey.key ⟨5⟩]).1.executions =
      emptyLiveCtx.executions + 1 ∧
    ∀ f ∈ ( requestAll emptyLiveCtx ⟨0⟩ [ParentKey.none, ParentKey.key ⟨5⟩]).2,
      f = .promise ⟨0⟩ := by
  have h := compute_opaque_dedup.2.2 emptyLiveCtx ⟨0⟩
    [ParentKey.none, ParentKey.key ⟨5⟩] rfl (by decide)
  exact ⟨h.1, h.2.1⟩

/-- Completing a projection promise passes through no suspension point. -/
theorem project_for_key_trace_nil (ctx : SharedLiveTransactionCtx)
    (promise : ProjectionPromise) (key : DiceKey) (e : SyncEvaluator) :
    ( IncrementalEngine.project_for_key ctx promise key e).trace = [] := by
  unfold IncrementalEngine.project_for_key
  split
  · rfl
  · dsimp only
    split <;> rfl
  · rfl

/-- Completing a projection promise starts no async compute logic. -/
theorem project_for_key_executions (ctx : SharedLiveTransactionCtx)
    (promise : ProjectionPromise) (key : DiceKey) (e : SyncEvaluator) :
    ( IncrementalEngine.project_for_key ctx promise key e).ctx.executions =
      ctx.executions := by
  unfold IncrementalEngine.project_for_key
  split
  · rfl
  · dsimp only
    split <;> rfl
  · rfl

/-- Completing a projection promise touches no cache slot but the
projection's own. -/
theorem project_for_key_local (ctx : SharedLiveTransactionCtx)
    (promise : ProjectionPromise) (key : DiceKey) (e : SyncEvaluator)
    (k2 : DiceKey) (h : k2 ≠ key) :
    findTask ( IncrementalEngine.project_for_key ctx promise key
        e).ctx.cache.entries k2 =
      findTask ctx.cache.entries k2 := by
  unfold IncrementalEngine.project_for_key
  split
  · rfl
  · dsimp only
    split
    · simp [SharedCache.set, findTask_setTask_ne _ _ _ _ h]
    · rfl
  · rfl

/-- The whole synchronous projection path passes through no suspension. -/
theorem compute_projection_trace_nil (ctx : SharedLiveTransactionCtx)
    (key : DiceKey) (p : ParentKey) (e : SyncEvaluator) :
    ( SharedLiveTransactionCtx.compute_projection ctx key p e).trace = [] := by
  unfold SharedLiveTransactionCtx.compute_projection
  split
  · split <;> apply project_for_key_trace_nil
  · apply project_for_key_trace_nil
  · apply project_for_key_trace_nil

/-- Claim C8: `compute_projection` (and `project` built on it) is
synchronous: it returns its `CancellableResult` passing through no
suspension point, spawns no async task (the execution counter is untouched),
and reads or writes nothing outside the resolved base value handed to it and
the projection's own task slot. -/
theorem compute_projection_synchronous :
    (∀ (ctx : SharedLiveTransactionCtx) (key : DiceKey) (p : ParentKey)
        (e : SyncEvaluator),
      ( SharedLiveTransactionCtx.compute_projection ctx key p e).trace = [] ∧
      ( SharedLiveTransactionCtx.compute_projection ctx key p
          e).ctx.executions = ctx.executions ∧
      (∀ k2 : DiceKey, k2 ≠ key →
        findTask ( SharedLiveTransactionCtx.compute_projection ctx key p
            e).ctx.cache.entries k2 =
          findTask ctx.cache.entries k2)) ∧
    (∀ (pctx : PerComputeCtx) (pk tag : Nat) (bk : DiceKey)
        (base : MaybeValidDiceValue)
        (pc : MaybeValidDiceValue → MaybeValidDiceValue),
      ( PerComputeCtx.project pctx pk tag bk base pc).2.2 = []) := by
  constructor
  · intro ctx key p e
    refine ⟨compute_projection_trace_nil ctx key p e, ?_, ?_⟩
    · unfold SharedLiveTransactionCtx.compute_projection
      split
      · split <;> apply project_for_key_executions
      · apply project_for_key_executions
      · apply project_for_key_executions
    · intro k2 hk2
      unfold SharedLiveTransactionCtx.compute_projection
      split
      · split <;>
          { rw [project_for_key_local _ _ _ _ _ hk2]
            simp [SharedCache.set, findTask_setTask_ne _ _ _ _ hk2] }
      · rw [project_for_key_local _ _ _ _ _ hk2]
        simp [SharedCache.set, findTask_setTask_ne _ _ _ _ hk2]
      · exact project_for_key_local _ _ _ _ _ hk2
  · intro pctx pk tag bk base pc
    unfold PerComputeCtx.project
    dsimp only
    split
    · exact compute_projection_trace_nil _ _ _ _
    · split <;> exact compute_projection_trace_nil _ _ _ _

/-- Witness for C8: a concrete projection request on a fresh cache. -/
theorem compute_projection_synchronous_witness :
    ( SharedLiveTransactionCtx.compute_projection emptyLiveCtx ⟨0⟩ .none
        ⟨fixtureBase, fixtureProj⟩).trace = [] ∧
    findTask ( SharedLiveTransactionCtx.compute_projection emptyLiveCtx ⟨0⟩
        .none ⟨fixtureBase, fixtureProj⟩).ctx.cache.entries ⟨1⟩ =
      findTask emptyLiveCtx.cache.entries ⟨1⟩ := by
  have h := compute_projection_synchronous.1 emptyLiveCtx ⟨0⟩ .none
    ⟨fixtureBase, fixtureProj⟩
  exact ⟨h.1, h.2.2 ⟨1⟩ (by decide)⟩

/-! The C5 scenario: inside one evaluation, `compute(A)` (via
`compute_opaque` + `into_value`) followed by `projection(opaque(B), P)`. -/

/-- The resolved value of the base key A in the C5 scenario. -/
def scenarioValueA : MaybeValidDiceValue := ⟨⟨4, 9⟩, .valid⟩

/-- Step 1: request key A (structural id 10); A is interned as DiceKey 0. -/
def scenarioStep1 : PerComputeCtx × DiceKey × OpaqueFuture :=
  PerComputeCtx.compute_opaque emptyPerCtx 10

/-- Step 2: consume A's opaque value, recording the dependency on A. -/
def scenarioStep2 : PerComputeCtx × Nat :=
  PerComputeCtx.opaque_into_value scenarioStep1.1
    ⟨scenarioStep1.2.1, scenarioValueA⟩

/-- Step 3: request key B (structural id 20); B is interned as DiceKey 1. -/
def scenarioStep3 : PerComputeCtx × DiceKey × OpaqueFuture :=
  PerComputeCtx.compute_opaque scenarioStep2.1 20

/-- Step 4: project P (structural id 30, value tag 7) over B's opaque
value. -/
def scenarioStep4 : PerComputeCtx × PanicOr (DiceResult Nat) ×
    List SuspensionPoint :=
  PerComputeCtx.project scenarioStep3.1 30 7 scenarioStep3.2.1 fixtureBase
    fixtureProj

/-- Claim C5: every successful projection call records exactly one
dependency edge into the evaluation's deps tracker — the interned projection
DiceKey (the (base DiceKey, projection key) pair) paired with the projection
result's validity, not the base key; an evaluation calling `compute(A)` then
`projection(opaque(B), P)` hence records exactly {A, P(B)}, with B itself
absent from the recorded edges. -/
theorem project_records_projection_dep :
    (∀ (ctx : PerComputeCtx) (key tag : Nat) (bk : DiceKey)
        (base : MaybeValidDiceValue)
        (pc : MaybeValidDiceValue → MaybeValidDiceValue)
        (r : DiceComputedValue),
      ( SharedLiveTransactionCtx.compute_projection ctx.per_live_version_ctx
          (ctx.key_index.index (.proj bk key)).2 ctx.parent_key
          ⟨base, pc⟩).result = .ok r →
      ( PerComputeCtx.project ctx key tag bk base pc).1.dep_trackers =
        ctx.dep_trackers ++
          [((ctx.key_index.index (.proj bk key)).2, r.value.validity)]) ∧
    scenarioStep1.2.1 = ⟨0⟩ ∧
    scenarioStep3.2.1 = ⟨1⟩ ∧
    scenarioStep4.1.dep_trackers =
      [(⟨0⟩, DiceValidity.valid), (⟨2⟩, DiceValidity.valid)] ∧
    ((⟨1⟩ : DiceKey) ∈ scenarioStep4.1.dep_trackers.map Prod.fst → False) ∧
    scenarioStep4.2.1 = .ok (.ok 4) := by
  refine ⟨?_, rfl, rfl, by decide, by decide, rfl⟩
  intro ctx key tag bk base pc r h
  unfold PerComputeCtx.project
  simp only [h]
  split <;> simp [PerComputeCtx.recordDep]

/-- Witness for C5 at a concrete successful projection. -/
theorem project_records_projection_dep_witness :
    ( PerComputeCtx.project emptyPerCtx 30 7 ⟨0⟩ fixtureBase
        fixtureProj).1.dep_trackers =
      emptyPerCtx.dep_trackers ++ [(⟨0⟩, DiceValidity.valid)] :=
  project_records_projection_dep.1 emptyPerCtx 30 7 ⟨0⟩ fixtureBase
    fixtureProj fixtureProjResult rfl

end Buck2
